import Mathlib

/-!
Verification of the CatSniffer-Tools core against its specification.

The development shallowly embeds the two source modules:

* `pycatsniffer_bv3/Modules/Protocols.py` — protocol descriptors, the
  frequency/command encoding, and the protocol registry;
* `pycatsniffer_bv3/Modules/Fifo.py` — the streaming-pipe worker
  (`FifoLinux` / `FifoWindows`) as an explicit transition system.

Python machine-level details are made explicit: `int()` truncates toward
zero (`pythonInt`), `n.to_bytes(len, "little")` fails outside
`[0, 256^len)` (`int_to_bytes_le` returns `none` there), a fallible call
is an `Option`, and byte strings are `List Nat`.
-/

namespace CatSniffer

/-- Modelled from the spec: the command opcodes of `Definitions.SnifferCommands`
(the `Definitions` module is not among the sources); §4.2 fixes the command set
as ping, stop, start, configure-PHY, configure-frequency and
configure-initiator-address, with distinct opcodes. -/
inductive SnifferCommand where
  | CMD_PING
  | CMD_STOP
  | CMD_START
  | CMD_CFG_PHY
  | CMD_CFG_FREQUENCY
  | CMD_CFG_BLE_INITIATOR_ADDRESS
deriving DecidableEq, Repr

/-- Modelled from the spec: `Definitions.PacketCommand` (module not among the
sources); per §3 a Command is an opcode plus an optional payload byte
sequence. -/
structure PacketCommand where
  opcode : SnifferCommand
  payload : List Nat := []
deriving DecidableEq, Repr

/-- Python `int()` applied to a rational: truncation toward zero. -/
def pythonInt (q : ℚ) : Int := q.num.tdiv q.den

/-- Little-endian byte list of `n`, `len` bytes (the digits of `n` base 256). -/
def natBytesLE : Nat → Nat → List Nat
  | _, 0 => []
  | n, len + 1 => (n % 256) :: natBytesLE (n / 256) len

/-- Python `n.to_bytes(len, byteorder="little")`: `none` models the
`OverflowError` raised when `n` is negative or does not fit in `len` bytes. -/
def int_to_bytes_le (n : Int) (len : Nat) : Option (List Nat) :=
  if 0 ≤ n ∧ n < (256 : Int) ^ len then some (natBytesLE n.toNat len) else none

/-- Source constant `Protocol.CONST_FRECUENCY` from `Protocols.py` (2^16). -/
def CONST_FRECUENCY : Nat := 65536

/-- Embeds `Protocol` from `Protocols.py`. Frequencies (Python floats, all with small
exact binary representations in the program) are embedded as rationals;
`phy_index` (a Python `bytearray`) is a byte list. -/
structure Protocol where
  phy_index : List Nat
  name : String
  phy_label : String
  base_frequency : ℚ
  spacing : ℚ
  channel_range : List (Int × ℚ)
  pcap_header : Nat := 147
  common_names : List String := []
  profile : String := "Default"
deriving DecidableEq, Repr

/-- Embeds `Protocol.find_by_name`: returns the protocol itself when `name` occurs in
`common_names`, else Python `None`. -/
def Protocol.find_by_name (p : Protocol) (name : String) : Option Protocol :=
  if name ∈ p.common_names then some p else none

/-- First `(index, frequency)` pair of `ranges` whose index equals
`channel_index` (the loop body shared by the channel lookups). -/
def lookupChannel : List (Int × ℚ) → Int → Option ℚ
  | [], _ => none
  | c :: rest, channel_index =>
    if c.1 = channel_index then some c.2 else lookupChannel rest channel_index

/-- Embeds `Protocol.get_channel_bytes`: despite its name the source returns the raw
frequency entry of the channel table, or the empty byte string `b""` for an
absent channel; the absent case is modelled as `none`. -/
def Protocol.get_channel_bytes (p : Protocol) (channel_index : Int) : Option ℚ :=
  lookupChannel p.channel_range channel_index

/-- Embeds `Protocol.list_channel_range` (property): the channel indices, in table
order. -/
def Protocol.list_channel_range (p : Protocol) : List Int :=
  p.channel_range.map (fun c => c.1)

/-- Embeds `Protocol.__calculate_fractional_frequency`, verbatim including its defect:
the fractional value is computed from `integer_value - integer_value`, which is
always zero. -/
def calculate_fractional_frequency (frequency : ℚ) : Int × Int :=
  let integer_value : Int := pythonInt frequency
  let fractional_value : Int :=
    pythonInt (((integer_value : ℚ) - (integer_value : ℚ)) * (CONST_FRECUENCY : ℚ))
  (integer_value, fractional_value)

/-- Embeds `Protocol.calculate_frequency`: two 16-bit little-endian fields, the
integer part then the fractional part; `none` models an `OverflowError` from
`to_bytes`. -/
def calculate_frequency (frequency : ℚ) : Option (List Nat) :=
  match calculate_fractional_frequency frequency with
  | (frequency_int, frequency_fract) =>
    match int_to_bytes_le frequency_int 2, int_to_bytes_le frequency_fract 2 with
    | some a, some b => some (a ++ b)
    | _, _ => none

/-- Follows the spec text of §4.2 for comparison with `calculate_frequency`:
bytes 0-1 are the integer part (floor) of the frequency in MHz, bytes 2-3 are
`round((frequency - floor(frequency)) * 65536)`, both 16-bit little-endian. -/
def spec_calculate_frequency (frequency : ℚ) : Option (List Nat) :=
  match int_to_bytes_le ⌊frequency⌋ 2,
        int_to_bytes_le (round ((frequency - (⌊frequency⌋ : ℚ)) * (CONST_FRECUENCY : ℚ))) 2 with
  | some a, some b => some (a ++ b)
  | _, _ => none

/-- Embeds `Protocol.command_start`. -/
def Protocol.command_start (_ : Protocol) : PacketCommand :=
  { opcode := SnifferCommand.CMD_START }

/-- Embeds `Protocol.command_stop`. -/
def Protocol.command_stop (_ : Protocol) : PacketCommand :=
  { opcode := SnifferCommand.CMD_STOP }

/-- Embeds `Protocol.command_ping`. -/
def Protocol.command_ping (_ : Protocol) : PacketCommand :=
  { opcode := SnifferCommand.CMD_PING }

/-- Embeds `Protocol.command_cfg_phy`: opcode plus the `phy_index` bytes. -/
def Protocol.command_cfg_phy (p : Protocol) : PacketCommand :=
  { opcode := SnifferCommand.CMD_CFG_PHY, payload := p.phy_index }

/-- Embeds `Protocol.command_cfg_frequency`: looks the channel up, encodes its
frequency, and wraps it in a command. An absent channel makes
`get_channel_bytes` return `b""`, on which the `int()` inside
`calculate_frequency` raises `ValueError`; both failure paths are `none`. -/
def Protocol.command_cfg_frequency (p : Protocol) (channel : Int) : Option PacketCommand :=
  match p.get_channel_bytes channel with
  | none => none
  | some fr =>
    match calculate_frequency fr with
    | none => none
    | some payload => some { opcode := SnifferCommand.CMD_CFG_FREQUENCY, payload := payload }

/-- Embeds `Protocol.command_cfg_init_address`. -/
def Protocol.command_cfg_init_address (_ : Protocol) (address : List Nat) : PacketCommand :=
  { opcode := SnifferCommand.CMD_CFG_BLE_INITIATOR_ADDRESS, payload := address }

/-- Embeds `Protocol.command_startup`: the five commands in source order; the list
literal is evaluated left to right, so a failing frequency configuration makes
the whole call raise, modelled as `none`. -/
def Protocol.command_startup (p : Protocol) (channel : Int) : Option (List PacketCommand) :=
  match p.command_cfg_frequency channel with
  | none => none
  | some cfg_frequency =>
    some [p.command_ping, p.command_stop, p.command_cfg_phy, cfg_frequency, p.command_start]

/-- Embeds `PROTOCOL_BLE` from `Protocols.py`. -/
def PROTOCOL_BLE : Protocol :=
  { phy_index := [0x13]
    name := "Bluetooth LE"
    phy_label := "2402 MHz - Freq Band"
    base_frequency := 2402
    spacing := 2
    channel_range := [(37, 2402), (38, 2426), (39, 2480)]
    pcap_header := 147
    common_names := ["ble", "bluetooth", "bluetoothle"] }

/-- The channel table shared by `PROTOCOL_ZIGBEE` and `PROTOCOL_THREAD`:
`[(channel, 2405.0 + 5 * (channel - 11)) for channel in range(11, 27)]`. -/
def ieee802154_channel_range : List (Int × ℚ) :=
  (List.range' 11 16).map
    (fun channel => ((channel : Int), (2405 : ℚ) + 5 * ((channel : ℚ) - 11)))

/-- Embeds `PROTOCOL_ZIGBEE` from `Protocols.py`. -/
def PROTOCOL_ZIGBEE : Protocol :=
  { phy_index := [0x12]
    name := "Zigbee"
    phy_label := "2405 MHz - Freq Band"
    base_frequency := 2405
    spacing := 5
    channel_range := ieee802154_channel_range
    pcap_header := 147
    common_names := ["zigbee", "zig", "zb"]
    profile := "Zigbee" }

/-- Embeds `PROTOCOL_THREAD` from `Protocols.py`. -/
def PROTOCOL_THREAD : Protocol :=
  { phy_index := [0x12]
    name := "Thread"
    phy_label := "2405 MHz - Freq Band"
    base_frequency := 2405
    spacing := 5
    channel_range := ieee802154_channel_range
    pcap_header := 147
    common_names := ["thread"]
    profile := "Thread" }

/-- Embeds `PROTOCOL_LORA` from `Protocols.py` (no aliases, default profile). -/
def PROTOCOL_LORA : Protocol :=
  { phy_index := [0x14]
    name := "LoRa"
    phy_label := "915 MHz - Freq Band"
    base_frequency := 915
    spacing := 125
    channel_range := [(0, 433), (1, 434), (2, 435)]
    pcap_header := 148
    profile := "Default" }

/-- The rational 433.5 = 867/2, given as a raw numerator/denominator pair so
that its fields compute. -/
def q4335 : ℚ := ⟨867, 2, by decide, by decide⟩

/-- A descriptor whose channel 0 has the non-integral frequency 433.5 MHz, the
input named by the frequency-encoding claim (the registry descriptors all have
integral frequencies, so the defective fractional computation is invisible on
them). -/
def PROTOCOL_433_5 : Protocol :=
  { PROTOCOL_LORA with channel_range := [(0, q4335)] }

/-- Result of `PROTOCOLSLIST.get_protocol_by_name`: a match on the enum member
name yields the enum member (`member`), a match on an alias yields the bare
`Protocol` returned by `find_by_name` (`proto`). -/
inductive Resolved where
  | member (member_name : String) (value : Protocol)
  | proto (p : Protocol)
deriving DecidableEq, Repr

/-- The `PROTOCOLSLIST` enum as an association of member names to values, in
declaration order (Python `Enum` iterates members in declaration order). -/
def PROTOCOLSLIST_entries : List (String × Protocol) :=
  [("PROTOCOL_BLE", PROTOCOL_BLE),
   ("PROTOCOL_ZIGBEE", PROTOCOL_ZIGBEE),
   ("PROTOCOL_THREAD", PROTOCOL_THREAD),
   ("PROTOCOL_LORA", PROTOCOL_LORA)]

/-- The loop body of `PROTOCOLSLIST.get_protocol_by_name`: compare `name` with
the enum member name, else consult the value through `find_by_name`. -/
def resolve_by_name_aux (name : String) : List (String × Protocol) → Option Resolved
  | [] => none
  | e :: rest =>
    if e.1 = name then some (Resolved.member e.1 e.2)
    else
      match e.2.find_by_name name with
      | some p => some (Resolved.proto p)
      | none => resolve_by_name_aux name rest

/-- Embeds `PROTOCOLSLIST.get_protocol_by_name`. -/
def get_protocol_by_name (name : String) : Option Resolved :=
  resolve_by_name_aux name PROTOCOLSLIST_entries

/-! ### The streaming-pipe worker (`Fifo.py`)

The drain loops of `FifoLinux.run` and `FifoWindows.run` are embedded as one
step function per platform over an explicit state, plus step relations that
interleave worker iterations with the producer (`add_data`) and the
cancellation request (`stop`). A write to the pipe is an abstract event:
either the capture-format global header (produced by `Pcap.get_global_header`,
whose exact bytes are irrelevant here) or a packet record. -/

/-- An observable write to the pipe: the one-time global capture header, or a
packet record carrying the frame bytes. -/
inductive Ev where
  | header : Ev
  | record : List Nat → Ev
deriving DecidableEq, Repr

/-- The mutable fields of a `Fifo` worker shared between the producer thread
and the drain loop: the cancellation flag (`fifo_recv_cancel`), the one-time
header flag (`fifo_need_header`), the pending-frame slot (`fifo_packet`, where
`some []` is an empty byte string, falsy in Python), the last written frame
(`last_packet`), the sequence of writes made to the pipe so far (`out`), and
for the Windows variant the flag that its loop has been terminated by a
transport error (`dead`; unused by the Linux variant). -/
structure FifoState where
  recvCancel : Bool
  needHeader : Bool
  packet : Option (List Nat)
  lastPacket : Option (List Nat)
  out : List Ev
  dead : Bool
deriving DecidableEq, Repr

/-- The state at entry of the drain loop: `Fifo.__init__` sets
`fifo_recv_cancel = False` (re-set by `run`), `fifo_need_header = True`,
`fifo_packet = None`, `last_packet = None`, and nothing has been written. -/
def fifoInit : FifoState :=
  { recvCancel := false
    needHeader := true
    packet := none
    lastPacket := none
    out := []
    dead := false }

/-- Embeds `FifoLinux.add_data` / `FifoWindows.add_data`: one plain assignment
`self.fifo_packet = data`, overwriting whatever was pending. -/
def addData (s : FifoState) (data : List Nat) : FifoState :=
  { s with packet := some data }

/-- Environment input of one drain-loop iteration: whether the header
write+flush succeeds and whether the packet write+flush succeeds (a failure is
a `BrokenPipeError` on Linux, a `pywintypes.error` on Windows). -/
structure IterInput where
  hdrOk : Bool
  pktOk : Bool
deriving DecidableEq, Repr

/-- One iteration of the `while not self.fifo_recv_cancel` body of
`FifoLinux.run`. A falsy pending slot (Python `None` or `b""`) sleeps; a
pending frame equal to `last_packet` does nothing; otherwise the header is
written first when still needed, then the frame, and only a fully successful
frame write updates `last_packet` and clears the slot. A `BrokenPipeError` at
either write aborts the iteration body (the `except` clause is `pass`),
keeping the remaining state unchanged. -/
def linuxIter (s : FifoState) (i : IterInput) : FifoState :=
  match s.packet with
  | none => s
  | some d =>
    if d = [] then s
    else if some d = s.lastPacket then s
    else
      match s.needHeader, i.hdrOk with
      | true, false => s
      | true, true =>
        if i.pktOk then
          { s with needHeader := false
                   out := s.out ++ [Ev.header, Ev.record d]
                   lastPacket := some d
                   packet := none }
        else
          { s with needHeader := false, out := s.out ++ [Ev.header] }
      | false, _ =>
        if i.pktOk then
          { s with out := s.out ++ [Ev.record d], lastPacket := some d, packet := none }
        else s

/-- One iteration of the loop body of `FifoWindows.run`: identical writing
logic, but the surrounding `try` encloses the whole loop, so any
`pywintypes.error` terminates the loop (`dead := true`); `fifo_need_header` is
cleared only after the header `WriteFile` returns. -/
def winIter (s : FifoState) (i : IterInput) : FifoState :=
  match s.packet with
  | none => s
  | some d =>
    if d = [] then s
    else if some d = s.lastPacket then s
    else
      match s.needHeader, i.hdrOk with
      | true, false => { s with dead := true }
      | true, true =>
        if i.pktOk then
          { s with needHeader := false
                   out := s.out ++ [Ev.header, Ev.record d]
                   lastPacket := some d
                   packet := none }
        else
          { s with needHeader := false, out := s.out ++ [Ev.header], dead := true }
      | false, _ =>
        if i.pktOk then
          { s with out := s.out ++ [Ev.record d], lastPacket := some d, packet := none }
        else { s with dead := true }

/-- Interleaving semantics of a `FifoLinux` session: drain-loop iterations
(run only while the cancellation flag is down), producer submissions
(`add_data`, possible at any time), and the cancellation in `stop`. -/
inductive LStep : FifoState → FifoState → Prop where
  | worker (s : FifoState) (i : IterInput) (h : s.recvCancel = false) :
      LStep s (linuxIter s i)
  | submit (s : FifoState) (d : List Nat) : LStep s (addData s d)
  | cancel (s : FifoState) : LStep s { s with recvCancel := true }

/-- States of a `FifoLinux` session reachable from loop entry. -/
inductive LReach : FifoState → Prop where
  | init : LReach fifoInit
  | step {s t : FifoState} : LReach s → LStep s t → LReach t

/-- Interleaving semantics of a `FifoWindows` session; its loop additionally
stops for good once a transport error has killed it, and `FifoWindows.stop`
also clears the pending slot. -/
inductive WStep : FifoState → FifoState → Prop where
  | worker (s : FifoState) (i : IterInput) (h1 : s.recvCancel = false)
      (h2 : s.dead = false) : WStep s (winIter s i)
  | submit (s : FifoState) (d : List Nat) : WStep s (addData s d)
  | cancel (s : FifoState) : WStep s { s with recvCancel := true, packet := none }

/-- States of a `FifoWindows` session reachable from loop entry. -/
inductive WReach : FifoState → Prop where
  | init : WReach fifoInit
  | step {s t : FifoState} : WReach s → WStep s t → WReach t

/-- Number of iterations the Linux drain loop executes when offered the
environment inputs `inputs` one per iteration: the `while` guard is tested
before each one. -/
def linuxLoopIters : FifoState → List IterInput → Nat
  | _, [] => 0
  | s, i :: rest => if s.recvCancel then 0 else 1 + linuxLoopIters (linuxIter s i) rest

/-- An output list is well formed when it is empty or a single leading header
followed by packet records only. -/
def outOk (l : List Ev) : Prop :=
  l = [] ∨ ∃ rs, l = Ev.header :: rs ∧ ∀ e ∈ rs, e ≠ Ev.header

/-- The invariant tying the header flag to the writes made so far. -/
def hdrInv (s : FifoState) : Prop :=
  (s.needHeader = true → s.out = []) ∧
  (s.needHeader = false → ∃ rs, s.out = Ev.header :: rs ∧ ∀ e ∈ rs, e ≠ Ev.header)

/-- The steps of `FifoLinux.stop`, in program order: raise the cancellation
flag, clear `fifo_data`, join the worker thread, and only then attempt
`os.remove` on the pipe path; when removal fails with `FileNotFoundError` the
error is logged and the process is terminated by `sys.exit(0)`. -/
inductive StopEv where
  | setCancelFlag
  | clearData
  | joinWorker
  | removeFile
  | logError
  | sysExit
deriving DecidableEq, Repr

/-- Embeds `FifoLinux.stop` as its state effect on the shared fields plus the ordered
trace of its actions, branching on whether `os.remove` succeeds. -/
def fifoLinuxStop (s : FifoState) (remove_ok : Bool) : FifoState × List StopEv :=
  ({ s with recvCancel := true },
    [StopEv.setCancelFlag, StopEv.clearData, StopEv.joinWorker, StopEv.removeFile] ++
      (if remove_ok then [] else [StopEv.logError, StopEv.sysExit]))

/-! ## Theorems -/

/-- The defect of `__calculate_fractional_frequency`, in general form: the
fractional component is zero for every input, because the source subtracts
`integer_value` from itself. -/
theorem calculate_fractional_frequency_eq (f : ℚ) :
    calculate_fractional_frequency f = (pythonInt f, 0) := by
  unfold calculate_fractional_frequency
  simp [pythonInt]

/-- The test rational is 433.5. -/
theorem q4335_eq_div : q4335 = (867 : ℚ) / 2 := by
  rw [show q4335 = (⟨867, 2, by decide, by decide⟩ : ℚ) from rfl, Rat.mk'_eq_divInt,
    Rat.divInt_eq_div]
  norm_num

/-- Evaluation of the source frequency encoding at 433.5 MHz: the fractional
bytes come out as zero. -/
theorem calculate_frequency_q4335 : calculate_frequency q4335 = some [177, 1, 0, 0] := by
  unfold calculate_frequency
  rw [calculate_fractional_frequency_eq]
  decide

/-- Evaluation of the specified (§4.2) frequency encoding at 433.5 MHz: the
fractional field is 32768, bytes `[0, 128]` little-endian. -/
theorem spec_calculate_frequency_4335 :
    spec_calculate_frequency ((867 : ℚ) / 2) = some [177, 1, 0, 128] := by
  unfold spec_calculate_frequency
  rw [show ⌊(867 : ℚ) / 2⌋ = 433 by norm_num]
  rw [show round (((867 : ℚ) / 2 - ((433 : ℤ) : ℚ)) * ((CONST_FRECUENCY : ℕ) : ℚ)) = 32768 by
    rw [round_eq]; norm_num [CONST_FRECUENCY]]
  decide

/-- Unfolding helper: a successful channel lookup and a successful frequency
encoding determine the configure-frequency command. -/
theorem command_cfg_frequency_eq_of (p : Protocol) (ch : Int) (f : ℚ) (b : List Nat)
    (h1 : p.get_channel_bytes ch = some f) (h2 : calculate_frequency f = some b) :
    p.command_cfg_frequency ch =
      some { opcode := SnifferCommand.CMD_CFG_FREQUENCY, payload := b } := by
  simp only [Protocol.command_cfg_frequency, h1, h2]

/-- C1: for a channel with the non-integral frequency 433.5 MHz the payload of
`command_cfg_frequency` carries fractional bytes `[0, 0]`, not the `[0, 128]`
(32768/65536) demanded by the claim: the code zeroes every fractional part.
This evaluates the code at the failing input, next to the spec-side
encoding. -/
theorem c1_fraction_encoding_zeroed :
    PROTOCOL_433_5.get_channel_bytes 0 = some q4335 ∧
    q4335 = (867 : ℚ) / 2 ∧
    PROTOCOL_433_5.command_cfg_frequency 0 =
      some { opcode := SnifferCommand.CMD_CFG_FREQUENCY, payload := [177, 1, 0, 0] } ∧
    spec_calculate_frequency ((867 : ℚ) / 2) = some [177, 1, 0, 128] ∧
    ([177, 1, 0, 0] : List Nat) ≠ [177, 1, 0, 128] :=
  ⟨rfl, q4335_eq_div,
    command_cfg_frequency_eq_of PROTOCOL_433_5 0 q4335 [177, 1, 0, 0] rfl
      calculate_frequency_q4335,
    spec_calculate_frequency_4335, by decide⟩

/-- C2 (counterexample): channel 0 is not a BLE channel, so `command_startup`
raises inside `calculate_frequency` (`int(b"")`) instead of returning the
five commands the claim promises for every channel index. -/
theorem c2_counterexample_unknown_channel :
    PROTOCOL_BLE.command_startup 0 = none := by decide

/-- C2 (amended): whenever the frequency configuration succeeds,
`command_startup` returns exactly the five commands
`[ping, stop, configurePhy, configureFrequency, start]` in this order, for
every descriptor; and when it fails, the startup call fails with it. -/
theorem c2_startup_fixed_sequence :
    (∀ (p : Protocol) (ch : Int) (c : PacketCommand),
      p.command_cfg_frequency ch = some c →
      p.command_startup ch =
        some [p.command_ping, p.command_stop, p.command_cfg_phy, c, p.command_start]) ∧
    (∀ (p : Protocol) (ch : Int),
      p.command_cfg_frequency ch = none → p.command_startup ch = none) := by
  constructor
  · intro p ch c h
    unfold Protocol.command_startup
    rw [h]
  · intro p ch h
    unfold Protocol.command_startup
    rw [h]

/-- Evaluation of the frequency command on BLE channel 37 (2402 MHz). -/
theorem cfg_frequency_ble_37 :
    PROTOCOL_BLE.command_cfg_frequency 37 =
      some { opcode := SnifferCommand.CMD_CFG_FREQUENCY, payload := [98, 9, 0, 0] } := by
  refine command_cfg_frequency_eq_of PROTOCOL_BLE 37 2402 [98, 9, 0, 0] (by decide) ?_
  unfold calculate_frequency
  rw [calculate_fractional_frequency_eq]
  decide

/-- Witness for `c2_startup_fixed_sequence` at BLE channel 37 and at the
absent BLE channel 0. -/
theorem c2_startup_fixed_sequence_witness :
    PROTOCOL_BLE.command_startup 37 =
      some [{ opcode := SnifferCommand.CMD_PING },
            { opcode := SnifferCommand.CMD_STOP },
            { opcode := SnifferCommand.CMD_CFG_PHY, payload := [0x13] },
            { opcode := SnifferCommand.CMD_CFG_FREQUENCY, payload := [98, 9, 0, 0] },
            { opcode := SnifferCommand.CMD_START }] ∧
    PROTOCOL_BLE.command_startup 0 = none :=
  ⟨c2_startup_fixed_sequence.1 PROTOCOL_BLE 37 _ cfg_frequency_ble_37,
    c2_startup_fixed_sequence.2 PROTOCOL_BLE 0 (by decide)⟩

/-- A channel index absent from the table makes the lookup loop fall through
to `b""`. -/
theorem lookupChannel_eq_none (ranges : List (Int × ℚ)) (ch : Int)
    (h : ch ∉ ranges.map (fun c => c.1)) : lookupChannel ranges ch = none := by
  induction ranges with
  | nil => rfl
  | cons c rest ih =>
    rw [List.map_cons, List.mem_cons] at h
    push_neg at h
    unfold lookupChannel
    rw [if_neg (fun hc => h.1 hc.symm)]
    exact ih h.2

/-- C4: a channel index outside the descriptor channel set makes
`command_cfg_frequency` fail (the `int(b"")` raise), producing no command, and
the failure propagates out of `command_startup` as well. -/
theorem c4_unknown_channel_rejected :
    ∀ (p : Protocol) (ch : Int), ch ∉ p.list_channel_range →
      p.command_cfg_frequency ch = none ∧ p.command_startup ch = none := by
  intro p ch h
  have h1 : p.get_channel_bytes ch = none := lookupChannel_eq_none _ _ h
  have hc : p.command_cfg_frequency ch = none := by
    unfold Protocol.command_cfg_frequency
    rw [h1]
  exact ⟨hc, by unfold Protocol.command_startup; rw [hc]⟩

/-- Witness for `c4_unknown_channel_rejected`: BLE has channels 37, 38, 39
only, and channel 0 is rejected. -/
theorem c4_unknown_channel_rejected_witness :
    (0 : Int) ∉ PROTOCOL_BLE.list_channel_range ∧
    PROTOCOL_BLE.command_cfg_frequency 0 = none ∧
    PROTOCOL_BLE.command_startup 0 = none :=
  ⟨by decide, (c4_unknown_channel_rejected PROTOCOL_BLE 0 (by decide)).1,
    (c4_unknown_channel_rejected PROTOCOL_BLE 0 (by decide)).2⟩

/-- C5 (counterexample): when removal of the pipe file fails because it is
already absent, `FifoLinux.stop` terminates the whole process through
`sys.exit(0)` — the failure is escalated to process level, contrary to the
claim. -/
theorem c5_counterexample_process_exit_on_cleanup_failure :
    StopEv.sysExit ∈ (fifoLinuxStop fifoInit false).2 := by decide

/-- C5 (amended): `stop` raises the cancellation flag and its actions happen
in the order flag, data clear, join, removal attempt — the pipe file is
removed only after the worker has been joined; on a removal failure the error
is logged and then the process exits via `sys.exit(0)`. -/
theorem c5_stop_order_and_exit :
    ∀ (s : FifoState) (remove_ok : Bool),
      (fifoLinuxStop s remove_ok).1 = { s with recvCancel := true } ∧
      (fifoLinuxStop s true).2 =
        [StopEv.setCancelFlag, StopEv.clearData, StopEv.joinWorker, StopEv.removeFile] ∧
      (fifoLinuxStop s false).2 =
        [StopEv.setCancelFlag, StopEv.clearData, StopEv.joinWorker, StopEv.removeFile,
         StopEv.logError, StopEv.sysExit] := by
  intro s remove_ok
  exact ⟨rfl, rfl, rfl⟩

/-- C6 (counterexample): the registry lookup compares the query against the
enum member name (`"PROTOCOL_BLE"`), never against the descriptor display
name, so resolving the BLE descriptor name `"Bluetooth LE"` finds nothing. -/
theorem c6_counterexample_display_name_unresolved :
    PROTOCOL_BLE.name = "Bluetooth LE" ∧ get_protocol_by_name "Bluetooth LE" = none :=
  ⟨rfl, by decide⟩

/-- C6 (amended): resolution is a case-sensitive first match against the enum
member identifier or the descriptor aliases; all three BLE aliases yield the
same BLE descriptor value, an unknown name yields `None`, and the member
identifier yields the enum member. -/
theorem c6_resolution_aliases_and_member_names :
    get_protocol_by_name "ble" = some (Resolved.proto PROTOCOL_BLE) ∧
    get_protocol_by_name "bluetooth" = some (Resolved.proto PROTOCOL_BLE) ∧
    get_protocol_by_name "bluetoothle" = some (Resolved.proto PROTOCOL_BLE) ∧
    get_protocol_by_name "nonexistent" = none ∧
    get_protocol_by_name "PROTOCOL_BLE" =
      some (Resolved.member "PROTOCOL_BLE" PROTOCOL_BLE) :=
  ⟨by decide, by decide, by decide, by decide, by decide⟩

/-- C7: `add_data` replaces the pending slot unconditionally with the new
frame, writes nothing to the pipe, touches no other state, and a second
submission before a flush simply supersedes the first (last-write-wins). -/
theorem c7_submit_replaces_slot :
    ∀ (s : FifoState) (d e : List Nat),
      (addData s d).packet = some d ∧
      (addData s d).out = s.out ∧
      (addData s d).needHeader = s.needHeader ∧
      addData (addData s e) d = addData s d := by
  intro s d e
  exact ⟨rfl, rfl, rfl, rfl⟩

/-- C9: a pending frame byte-identical to the last written frame is never
written: the drain-loop iteration leaves the whole state unchanged on both
platforms, so the frame stays in the slot until overwritten. -/
theorem c9_duplicate_frame_suppressed :
    ∀ (s : FifoState) (i : IterInput) (d : List Nat),
      s.packet = some d → s.lastPacket = some d →
      linuxIter s i = s ∧ winIter s i = s := by
  intro s i d hp hl
  constructor
  · unfold linuxIter
    rw [hp, hl]
    simp [ite_self]
  · unfold winIter
    rw [hp, hl]
    simp [ite_self]

/-- Witness for `c9_duplicate_frame_suppressed` at a concrete state whose
pending frame equals the last written one. -/
theorem c9_duplicate_frame_suppressed_witness :
    linuxIter
        { recvCancel := false, needHeader := false, packet := some [5],
          lastPacket := some [5], out := [Ev.header, Ev.record [5]], dead := false }
        { hdrOk := true, pktOk := true } =
      { recvCancel := false, needHeader := false, packet := some [5],
        lastPacket := some [5], out := [Ev.header, Ev.record [5]], dead := false } ∧
    winIter
        { recvCancel := false, needHeader := false, packet := some [5],
          lastPacket := some [5], out := [Ev.header, Ev.record [5]], dead := false }
        { hdrOk := true, pktOk := true } =
      { recvCancel := false, needHeader := false, packet := some [5],
        lastPacket := some [5], out := [Ev.header, Ev.record [5]], dead := false } :=
  c9_duplicate_frame_suppressed _ _ [5] rfl rfl

/-- C10: an empty submitted frame is falsy, so the drain-loop iteration treats
it exactly like an empty slot: it just sleeps — no write, no header, no state
change — and the same holds for a truly absent frame. -/
theorem c10_empty_frame_is_idle :
    ∀ (s : FifoState) (i : IterInput),
      linuxIter (addData s []) i = addData s [] ∧
      linuxIter { s with packet := none } i = { s with packet := none } := by
  intro s i
  exact ⟨rfl, rfl⟩

/-- A Linux drain-loop iteration preserves the header invariant. -/
theorem hdrInv_linuxIter (s : FifoState) (i : IterInput) (h : hdrInv s) :
    hdrInv (linuxIter s i) := by
  unfold linuxIter
  split
  · exact h
  next d hp =>
    split
    · exact h
    split
    · exact h
    split
    · exact h
    case _ hnh _ =>
      split
      · refine ⟨fun hx => Bool.noConfusion hx, fun _ => ⟨[Ev.record d], ?_, ?_⟩⟩
        · simp [h.1 hnh]
        · intro e he
          simp at he
          simp [he]
      · refine ⟨fun hx => Bool.noConfusion hx, fun _ => ⟨[], ?_, ?_⟩⟩
        · simp [h.1 hnh]
        · intro e he
          simp at he
    next x1 x2 hnh =>
      obtain ⟨rs, hout, hmem⟩ := h.2 hnh
      split
      · refine ⟨fun hx => ?_, fun _ => ⟨rs ++ [Ev.record d], ?_, ?_⟩⟩
        · rw [hnh] at hx
          exact Bool.noConfusion hx
        · simp [hout]
        · intro e he
          rcases List.mem_append.mp he with h1 | h1
          · exact hmem e h1
          · simp at h1
            simp [h1]
      · exact h

/-- A Windows drain-loop iteration preserves the header invariant. -/
theorem hdrInv_winIter (s : FifoState) (i : IterInput) (h : hdrInv s) :
    hdrInv (winIter s i) := by
  unfold winIter
  split
  · exact h
  next d hp =>
    split
    · exact h
    split
    · exact h
    split
    · exact h
    case _ hnh _ =>
      split
      · refine ⟨fun hx => Bool.noConfusion hx, fun _ => ⟨[Ev.record d], ?_, ?_⟩⟩
        · simp [h.1 hnh]
        · intro e he
          simp at he
          simp [he]
      · refine ⟨fun hx => Bool.noConfusion hx, fun _ => ⟨[], ?_, ?_⟩⟩
        · simp [h.1 hnh]
        · intro e he
          simp at he
    next x1 x2 hnh =>
      obtain ⟨rs, hout, hmem⟩ := h.2 hnh
      split
      · refine ⟨fun hx => ?_, fun _ => ⟨rs ++ [Ev.record d], ?_, ?_⟩⟩
        · rw [hnh] at hx
          exact Bool.noConfusion hx
        · simp [hout]
        · intro e he
          rcases List.mem_append.mp he with h1 | h1
          · exact hmem e h1
          · simp at h1
            simp [h1]
      · refine ⟨fun hx => ?_, fun _ => ⟨rs, hout, hmem⟩⟩
        rw [hnh] at hx
        exact Bool.noConfusion hx

/-- Every reachable state of a Linux pipe session satisfies the header
invariant. -/
theorem lreach_hdrInv : ∀ s, LReach s → hdrInv s := by
  intro s h
  induction h with
  | init => exact ⟨fun _ => rfl, fun hx => Bool.noConfusion hx⟩
  | step hr hs ih =>
    cases hs with
    | worker i h => exact hdrInv_linuxIter _ i ih
    | submit d => exact ih
    | cancel => exact ih

/-- Every reachable state of a Windows pipe session satisfies the header
invariant. -/
theorem wreach_hdrInv : ∀ s, WReach s → hdrInv s := by
  intro s h
  induction h with
  | init => exact ⟨fun _ => rfl, fun hx => Bool.noConfusion hx⟩
  | step hr hs ih =>
    cases hs with
    | worker i h1 h2 => exact hdrInv_winIter _ i ih
    | submit d => exact ih
    | cancel => exact ih

/-- The header invariant implies the well-formed-output shape. -/
theorem outOk_of_hdrInv (s : FifoState) (h : hdrInv s) : outOk s.out := by
  cases hn : s.needHeader with
  | false => exact Or.inr (h.2 hn)
  | true => exact Or.inl (h.1 hn)

/-- C3: in every reachable state of a pipe session, on either platform, the
byte stream written so far is either empty or one global header followed
exclusively by packet records: the header is never written twice, is never
preceded by a record, and every write after it is a record. -/
theorem c3_header_once :
    (∀ s : FifoState, LReach s → outOk s.out) ∧
    (∀ s : FifoState, WReach s → outOk s.out) :=
  ⟨fun s h => outOk_of_hdrInv s (lreach_hdrInv s h),
    fun s h => outOk_of_hdrInv s (wreach_hdrInv s h)⟩

/-- Witness for `c3_header_once`: the state reached by submitting the frame
`[1]` and running one successful iteration, on each platform. -/
theorem c3_header_once_witness :
    outOk (linuxIter (addData fifoInit [1]) { hdrOk := true, pktOk := true }).out ∧
    outOk (winIter (addData fifoInit [1]) { hdrOk := true, pktOk := true }).out :=
  ⟨c3_header_once.1 _
      (LReach.step (LReach.step LReach.init (LStep.submit fifoInit [1]))
        (LStep.worker _ _ rfl)),
    c3_header_once.2 _
      (WReach.step (WReach.step WReach.init (WStep.submit fifoInit [1]))
        (WStep.worker _ _ rfl rfl))⟩

/-- A Linux drain-loop iteration never changes the cancellation flag. -/
theorem linuxIter_recvCancel (s : FifoState) (i : IterInput) :
    (linuxIter s i).recvCancel = s.recvCancel := by
  unfold linuxIter
  repeat' split
  all_goals rfl

/-- A failed packet write leaves the pending slot untouched: the frame remains
pending and will be retried. -/
theorem linuxIter_packet_of_write_failure (s : FifoState) (i : IterInput)
    (h : i.pktOk = false) : (linuxIter s i).packet = s.packet := by
  unfold linuxIter
  repeat' split
  all_goals simp_all

/-- With the cancellation flag down, the Linux drain loop runs every offered
iteration, whatever pattern of write failures the environment produces. -/
theorem linuxLoopIters_all (s : FifoState) (inputs : List IterInput)
    (h : s.recvCancel = false) : linuxLoopIters s inputs = inputs.length := by
  induction inputs generalizing s with
  | nil => rfl
  | cons i rest ih =>
    unfold linuxLoopIters
    simp only [h, List.length_cons, Bool.false_eq_true, if_false]
    rw [ih (linuxIter s i) (by rw [linuxIter_recvCancel]; exact h)]
    omega

/-- C8 (amended): a broken-pipe write failure never terminates the Linux drain
loop — the loop keeps iterating for as long as the cancellation flag stays
down, the flag is never raised by an iteration, and the frame whose write
failed stays pending for retry rather than being discarded. -/
theorem c8_broken_pipe_keeps_worker_alive :
    ∀ (s : FifoState) (inputs : List IterInput) (i : IterInput),
      s.recvCancel = false → i.pktOk = false →
      linuxLoopIters s inputs = inputs.length ∧
      (linuxIter s i).recvCancel = false ∧
      (linuxIter s i).packet = s.packet := by
  intro s inputs i h hk
  exact ⟨linuxLoopIters_all s inputs h,
    by rw [linuxIter_recvCancel]; exact h,
    linuxIter_packet_of_write_failure s i hk⟩

/-- Witness for `c8_broken_pipe_keeps_worker_alive` on a concrete session. -/
theorem c8_broken_pipe_keeps_worker_alive_witness :
    linuxLoopIters (addData fifoInit [1, 2])
        [{ hdrOk := true, pktOk := false }, { hdrOk := true, pktOk := true }] = 2 ∧
    (linuxIter (addData fifoInit [1, 2])
        { hdrOk := true, pktOk := false }).recvCancel = false ∧
    (linuxIter (addData fifoInit [1, 2]) { hdrOk := true, pktOk := false }).packet =
      (addData fifoInit [1, 2]).packet :=
  c8_broken_pipe_keeps_worker_alive _ _ _ rfl rfl

/-- C8 (counterexample): after a broken-pipe failure of the packet write the
frame is still pending, and the very next successful iteration writes it —
the data of the frame whose write failed is not lost, contrary to the
claim. -/
theorem c8_counterexample_frame_not_lost :
    (linuxIter (addData fifoInit [1, 2]) { hdrOk := true, pktOk := false }).out =
      [Ev.header] ∧
    (linuxIter (addData fifoInit [1, 2]) { hdrOk := true, pktOk := false }).packet =
      some [1, 2] ∧
    (linuxIter (linuxIter (addData fifoInit [1, 2]) { hdrOk := true, pktOk := false })
        { hdrOk := true, pktOk := true }).out =
      [Ev.header, Ev.record [1, 2]] := by
  exact ⟨by decide, by decide, by decide⟩

end CatSniffer
